import Mathlib

/-!
Verification development for the `userbus` user-account business layer
(`src/business/domain/userbus/userbus.go`).

The repository ships only `userbus.go` under `src/`; the value types
(`User`, `NewUser`, `UpdateUser`), the delegate event helpers
(`ActionDeleted`, `ActionDeletedData`) and the external collaborators
(the bcrypt library, the storage adapter) are referenced there but not
defined there.  Those parts are modelled from the spec, and each such
definition says so in its doc comment.  Everything else is translated
directly from `userbus.go`.

Conventions of the embedding:
  * `uuid.UUID` is modelled as `Nat`, `time.Time` as `Nat`,
    `mail.Address` as its address `String`.
  * Go's `(value, error)` returns become `Except Err value`.
  * The ambient nondeterminism of `uuid.New()`, `time.Now()` and the
    bcrypt salt generator is made explicit as an `Env` input.
  * Stateful collaborator calls are made explicit: the storage state is
    threaded as a value of an abstract type `σ`, and every operation
    additionally returns the list of port calls it performed, in order.
-/

namespace Userbus

abbrev Uuid := Nat

abbrev Email := String

/-- bcrypt library constant `bcrypt.MinCost`. -/
def MinCost : Nat := 4

/-- bcrypt library constant `bcrypt.MaxCost`. -/
def MaxCost : Nat := 31

/-- bcrypt library constant `bcrypt.DefaultCost` (= 10), the cost the
code passes at every hashing call site. -/
def DefaultCost : Nat := 10

/-- bcrypt library constant: the 72-byte input limit of the hash. -/
def maxPasswordLength : Nat := 72

/-- Modelled from the spec: the value produced by the salted one-way
hash function.  The spec requires only that verification against the
originally hashed plaintext succeeds and anything else fails, so the
model records the cost, the salt and the hashed plaintext; the
`render` function below gives its on-the-wire byte encoding. -/
structure BcryptHash where
  cost : Nat
  salt : Nat
  pw : String
deriving DecidableEq, Repr

/-- The modular-crypt-format byte encoding of a bcrypt hash value (the
`[]byte` the Go field `PasswordHash` holds).  Its exact digits do not
matter for any claim; what matters is that it starts with a non-empty
format header, so it can never coincide with the plaintext. -/
def BcryptHash.render (h : BcryptHash) : String :=
  "$2a$" ++ Nat.repr h.cost ++ "$" ++ Nat.repr h.salt ++ "$" ++ h.pw

/-- Errors of the bcrypt library relevant to the code. -/
inductive BcryptError where
  | passwordTooLong
  | invalidCost (cost : Nat)
deriving DecidableEq, Repr

/-- Modelled from the spec: `bcrypt.GenerateFromPassword`.  Fails when
the plaintext exceeds the 72-byte input limit or the cost is out of
range; a cost below `MinCost` is bumped to `DefaultCost`, mirroring the
library.  The salt comes from the environment. -/
def GenerateFromPassword (password : String) (cost : Nat) (salt : Nat) :
    Except BcryptError BcryptHash :=
  if password.utf8ByteSize > maxPasswordLength then
    .error .passwordTooLong
  else if cost < MinCost then
    .ok { cost := DefaultCost, salt := salt, pw := password }
  else if cost > MaxCost then
    .error (.invalidCost cost)
  else
    .ok { cost := cost, salt := salt, pw := password }

/-- The bcrypt mismatch error returned by the verification function. -/
inductive CompareError where
  | mismatchedHashAndPassword
deriving DecidableEq, Repr

/-- Modelled from the spec: `bcrypt.CompareHashAndPassword` — succeeds
(`none`) exactly when the supplied plaintext is the one that was
hashed, and reports a mismatch otherwise. -/
def CompareHashAndPassword (hashedPassword : BcryptHash) (password : String) :
    Option CompareError :=
  if hashedPassword.pw = password then none else some .mismatchedHashAndPassword

/-- The error values observable from this package.  `wrap op e` models
`fmt.Errorf("op: %w", e)`; the leaf constructors model the sentinel
errors of the package (`ErrNotFound`, `ErrUniqueEmail`,
`ErrAuthenticationFailure`), bcrypt errors, and arbitrary storage
errors. -/
inductive Err where
  | notFound
  | uniqueEmail
  | authenticationFailure
  | bcrypt (e : BcryptError)
  | storage (msg : String)
  | wrap (op : String) (inner : Err)
deriving DecidableEq, Repr

/-- The kind of an error: the sentinel at the bottom of the `%w` wrap
chain, i.e. what a caller using `errors.Is` observes. -/
def Err.kind : Err → Err
  | .wrap _ e => Err.kind e
  | .notFound => .notFound
  | .uniqueEmail => .uniqueEmail
  | .authenticationFailure => .authenticationFailure
  | .bcrypt e => .bcrypt e
  | .storage msg => .storage msg

/-- Whether an error is a `fmt.Errorf` wrap of an underlying error. -/
def Err.isWrap : Err → Bool
  | .wrap _ _ => true
  | _ => false

/-- The root message of a sentinel error, as in `userbus.go` for the
package sentinels. -/
def Err.rootMsg : Err → String
  | .notFound => "user not found"
  | .uniqueEmail => "email is not unique"
  | .authenticationFailure => "authentication failed"
  | .bcrypt _ => "bcrypt error"
  | .storage msg => msg
  | .wrap _ _ => ""

/-- The full message of an error: `fmt.Errorf("op: %w", e)` renders as
the operation text, a colon-space, then the inner message. -/
def Err.message : Err → String
  | .wrap op e => op ++ ": " ++ Err.message e
  | e => e.rootMsg

/-- The error kind of a fallible result, when it is a failure. -/
def errKind? {A : Type} : Except Err A → Option Err
  | .error e => some e.kind
  | .ok _ => none

/-- Modelled from the spec: the persisted account record (`User`). -/
structure User where
  ID : Uuid
  Name : String
  Email : Email
  PasswordHash : BcryptHash
  Roles : List String
  Department : String
  Enabled : Bool
  DateCreated : Nat
  DateUpdated : Nat
deriving DecidableEq, Repr

/-- Modelled from the spec: the creation request (`NewUser`). -/
structure NewUser where
  Name : String
  Email : Email
  Password : String
  Roles : List String
  Department : String
deriving DecidableEq, Repr

/-- Modelled from the spec: the partial-update request (`UpdateUser`);
every field is optional and `none` means "no change". -/
structure UpdateUser where
  Name : Option String
  Email : Option Email
  Roles : Option (List String)
  Department : Option String
  Password : Option String
  Enabled : Option Bool
deriving DecidableEq, Repr

/-- Opaque query filter, passed through to the storage port. -/
structure QueryFilter where
  raw : Nat
deriving DecidableEq, Repr

/-- Opaque ordering clause, passed through to the storage port. -/
structure OrderBy where
  raw : Nat
deriving DecidableEq, Repr

/-- Opaque page selection, passed through to the storage port. -/
structure Page where
  raw : Nat
deriving DecidableEq, Repr

/-- Opaque transaction handle (`sqldb.CommitRollbacker`). -/
structure Tx where
  raw : Nat
deriving DecidableEq, Repr

/-- Opaque logger handle; the code stores it but no claim depends on
logging. -/
structure Logger where
  raw : Nat
deriving DecidableEq, Repr

/-- Modelled from the spec: the payload handed to the event-emission
port — a "user deleted" event carrying the user's identifier. -/
structure DelegateData where
  domain : String
  action : String
  userID : Uuid
deriving DecidableEq, Repr

/-- Modelled from the spec: the name of the user-deleted action. -/
def ActionDeleted : String := "deleted"

/-- Modelled from the spec: builds the user-deleted event payload
carrying the deleted user's identifier. -/
def ActionDeletedData (userID : Uuid) : DelegateData :=
  { domain := "user", action := ActionDeleted, userID := userID }

/-- The event-emission port (`delegate.Delegate`): calling it either
succeeds (`none`) or reports the subscribers' failure. -/
structure Delegate where
  call : DelegateData → Option Err

/-- The storage port (`Storer`).  The storage state is abstracted as a
value of type `σ`; mutating operations return the successor state.
`newWithTx` returns a rebound port, hence the inductive (rather than
structure) declaration. -/
inductive Storer (σ : Type) : Type where
  | mk
    (newWithTx : Tx → Except Err (Storer σ))
    (create : σ → User → Except Err σ)
    (update : σ → User → Except Err σ)
    (delete : σ → User → Except Err σ)
    (query : σ → QueryFilter → OrderBy → Page → Except Err (List User))
    (count : σ → QueryFilter → Except Err Int)
    (queryByID : σ → Uuid → Except Err User)
    (queryByEmail : σ → Email → Except Err User)

variable {σ : Type}

def Storer.newWithTx : Storer σ → Tx → Except Err (Storer σ)
  | .mk f _ _ _ _ _ _ _ => f

def Storer.create : Storer σ → σ → User → Except Err σ
  | .mk _ f _ _ _ _ _ _ => f

def Storer.update : Storer σ → σ → User → Except Err σ
  | .mk _ _ f _ _ _ _ _ => f

def Storer.delete : Storer σ → σ → User → Except Err σ
  | .mk _ _ _ f _ _ _ _ => f

def Storer.query : Storer σ → σ → QueryFilter → OrderBy → Page → Except Err (List User)
  | .mk _ _ _ _ f _ _ _ => f

def Storer.count : Storer σ → σ → QueryFilter → Except Err Int
  | .mk _ _ _ _ _ f _ _ => f

def Storer.queryByID : Storer σ → σ → Uuid → Except Err User
  | .mk _ _ _ _ _ _ f _ => f

def Storer.queryByEmail : Storer σ → σ → Email → Except Err User
  | .mk _ _ _ _ _ _ _ f => f

/-- One observable call to a collaborator port, recorded in order by
each business operation. -/
inductive PortCall where
  | storeCreate (usr : User)
  | storeUpdate (usr : User)
  | storeDelete (usr : User)
  | storeQuery (filter : QueryFilter) (orderBy : OrderBy) (page : Page)
  | storeCount (filter : QueryFilter)
  | storeQueryByID (userID : Uuid)
  | storeQueryByEmail (email : Email)
  | delegateCall (data : DelegateData)
deriving DecidableEq, Repr

/-- The core service struct (`business`): logger, delegate and storage
port, exactly the three fields of the Go struct. -/
structure business (σ : Type) where
  log : Logger
  delegate : Delegate
  storer : Storer σ

/-- The ambient inputs a single operation may draw on: the fresh
identifier produced by `uuid.New()`, the clock reading of
`time.Now()`, and the salt drawn by the bcrypt generator. -/
structure Env where
  freshID : Uuid
  now : Nat
  salt : Nat
deriving DecidableEq, Repr

/-- `NewWithTx`: asks the storage port to rebind to the transaction
handle; on success builds a fresh `business` value reusing the logger
and delegate, on failure propagates the error unwrapped. -/
def business.NewWithTx (b : business σ) (tx : Tx) : Except Err (business σ) :=
  match b.storer.newWithTx tx with
  | .error e => .error e
  | .ok storer => .ok { log := b.log, delegate := b.delegate, storer := storer }

/-- `Create`: hashes the plaintext at `bcrypt.DefaultCost`, builds the
record with a fresh identifier, `Enabled = true` and both timestamps
set to now, then persists it via the storage port. -/
def business.Create (b : business σ) (env : Env) (st : σ) (_actorID : Uuid)
    (nu : NewUser) : Except Err User × σ × List PortCall :=
  match GenerateFromPassword nu.Password DefaultCost env.salt with
  | .error e => (.error (.wrap "generatefrompassword" (.bcrypt e)), st, [])
  | .ok hash =>
    let usr : User := {
      ID := env.freshID,
      Name := nu.Name,
      Email := nu.Email,
      PasswordHash := hash,
      Roles := nu.Roles,
      Department := nu.Department,
      Enabled := true,
      DateCreated := env.now,
      DateUpdated := env.now }
    match b.storer.create st usr with
    | .error e => (.error (.wrap "create" e), st, [.storeCreate usr])
    | .ok st2 => (.ok usr, st2, [.storeCreate usr])

/-- Source step `if uu.Name != nil { usr.Name = *uu.Name }`. -/
def applyName (usr : User) (v : Option String) : User :=
  match v with
  | some name => { usr with Name := name }
  | none => usr

/-- Source step `if uu.Email != nil { usr.Email = *uu.Email }`. -/
def applyEmail (usr : User) (v : Option Email) : User :=
  match v with
  | some email => { usr with Email := email }
  | none => usr

/-- Source step `if uu.Roles != nil { usr.Roles = uu.Roles }`. -/
def applyRoles (usr : User) (v : Option (List String)) : User :=
  match v with
  | some roles => { usr with Roles := roles }
  | none => usr

/-- Source step `if uu.Department != nil { usr.Department = *uu.Department }`. -/
def applyDepartment (usr : User) (v : Option String) : User :=
  match v with
  | some department => { usr with Department := department }
  | none => usr

/-- Source step `if uu.Enabled != nil { usr.Enabled = *uu.Enabled }`. -/
def applyEnabled (usr : User) (v : Option Bool) : User :=
  match v with
  | some enabled => { usr with Enabled := enabled }
  | none => usr

/-- The tail of `Update` after the password step: apply the optional
`Department` and `Enabled` overwrites, refresh `DateUpdated` to now,
and persist the merged record via the storage port. -/
def business.updateRest (b : business σ) (env : Env) (st : σ) (usr : User)
    (uu : UpdateUser) : Except Err User × σ × List PortCall :=
  let merged : User :=
    { applyEnabled (applyDepartment usr uu.Department) uu.Enabled with
      DateUpdated := env.now }
  match b.storer.update st merged with
  | .error e => (.error (.wrap "update" e), st, [.storeUpdate merged])
  | .ok st2 => (.ok merged, st2, [.storeUpdate merged])

/-- `Update`: field-by-field optional overwrite in source order (Name,
Email, Roles, then Password — re-hashed, failing the whole operation
on a hash error before any port call — then Department, Enabled),
refreshes `DateUpdated`, persists the merged record. -/
def business.Update (b : business σ) (env : Env) (st : σ) (_actorID : Uuid)
    (usr : User) (uu : UpdateUser) : Except Err User × σ × List PortCall :=
  let u3 := applyRoles (applyEmail (applyName usr uu.Name) uu.Email) uu.Roles
  match uu.Password with
  | some password =>
    match GenerateFromPassword password DefaultCost env.salt with
    | .error e => (.error (.wrap "generatefrompassword" (.bcrypt e)), st, [])
    | .ok pw => b.updateRest env st { u3 with PasswordHash := pw } uu
  | none => b.updateRest env st u3 uu

/-- `Delete`: storage-port delete first; only on its success the
delegate is called with the user-deleted event; a delegate failure is
reported while the storage delete stays applied. -/
def business.Delete (b : business σ) (st : σ) (_actorID : Uuid) (usr : User) :
    Except Err Unit × σ × List PortCall :=
  match b.storer.delete st usr with
  | .error e => (.error (.wrap "delete" e), st, [.storeDelete usr])
  | .ok st2 =>
    match b.delegate.call (ActionDeletedData usr.ID) with
    | some e =>
      (.error (.wrap ("failed to execute `" ++ ActionDeleted ++ "` action") e),
       st2, [.storeDelete usr, .delegateCall (ActionDeletedData usr.ID)])
    | none =>
      (.ok (), st2, [.storeDelete usr, .delegateCall (ActionDeletedData usr.ID)])

/-- `Query`: pass-through to the storage port, wrapping a failure. -/
def business.Query (b : business σ) (st : σ) (filter : QueryFilter)
    (orderBy : OrderBy) (page : Page) : Except Err (List User) × List PortCall :=
  match b.storer.query st filter orderBy page with
  | .error e => (.error (.wrap "query" e), [.storeQuery filter orderBy page])
  | .ok users => (.ok users, [.storeQuery filter orderBy page])

/-- `Count`: `return b.storer.Count(ctx, filter)` — a direct
pass-through with no wrapping of the result, success or failure. -/
def business.Count (b : business σ) (st : σ) (filter : QueryFilter) :
    Except Err Int × List PortCall :=
  (b.storer.count st filter, [.storeCount filter])

/-- `QueryByID`: storage lookup; a failure is wrapped with a message
carrying the offending identifier. -/
def business.QueryByID (b : business σ) (st : σ) (userID : Uuid) :
    Except Err User × List PortCall :=
  match b.storer.queryByID st userID with
  | .error e =>
    (.error (.wrap ("query: userID[" ++ Nat.repr userID ++ "]") e),
     [.storeQueryByID userID])
  | .ok user => (.ok user, [.storeQueryByID userID])

/-- `QueryByEmail`: storage lookup; a failure is wrapped with a
message carrying the offending email. -/
def business.QueryByEmail (b : business σ) (st : σ) (email : Email) :
    Except Err User × List PortCall :=
  match b.storer.queryByEmail st email with
  | .error e =>
    (.error (.wrap ("query: email[" ++ email ++ "]") e),
     [.storeQueryByEmail email])
  | .ok user => (.ok user, [.storeQueryByEmail email])

/-- `Authenticate`: looks up by email through `QueryByEmail` (wrapping
its failure once more with the email), then verifies the plaintext
against the stored hash; a mismatch is reported as the generic
`ErrAuthenticationFailure` wrapped with the comparing step's name. -/
def business.Authenticate (b : business σ) (st : σ) (email : Email)
    (password : String) : Except Err User × List PortCall :=
  match b.QueryByEmail st email with
  | (.error e, calls) =>
    (.error (.wrap ("query: email[" ++ email ++ "]") e), calls)
  | (.ok usr, calls) =>
    match CompareHashAndPassword usr.PasswordHash password with
    | some _ => (.error (.wrap "comparehashandpassword" .authenticationFailure), calls)
    | none => (.ok usr, calls)

/-- The plugin-application loop of `NewBusiness`: iterate the plugin
list from its last element down to its first, replacing the running
`Business` value `b` by `p(b)` at every non-nil entry.  The `Business`
interface is abstracted as the type `B`; a nil plugin is `none`. -/
def applyPlugins {B : Type} (plugins : List (Option (B → B))) (b : B) : B :=
  plugins.reverse.foldl
    (fun acc p =>
      match p with
      | none => acc
      | some f => f acc)
    b

/-- `NewBusiness`: build the core value, then run the plugin loop. -/
def NewBusiness {B : Type} (core : B) (plugins : List (Option (B → B))) : B :=
  applyPlugins plugins core

/-! ### Concrete collaborators for witnesses and counterexamples

An in-memory storage fake satisfying the port contract the spec states
(not-found lookups, email uniqueness on create), plus degenerate
storers and delegates exercising failure paths. -/

/-- In-memory `Storer.Create`: rejects a duplicate email, else appends. -/
def memCreate (st : List User) (usr : User) : Except Err (List User) :=
  if st.any (fun u => u.Email == usr.Email) then .error .uniqueEmail
  else .ok (st ++ [usr])

/-- In-memory `Storer.Update`: replaces the record with the same ID. -/
def memUpdate (st : List User) (usr : User) : Except Err (List User) :=
  if st.any (fun u => u.ID == usr.ID) then
    .ok (st.map (fun u => if u.ID == usr.ID then usr else u))
  else .error .notFound

/-- In-memory `Storer.Delete`: drops the record with the same ID. -/
def memDelete (st : List User) (usr : User) : Except Err (List User) :=
  .ok (st.filter (fun u => u.ID != usr.ID))

/-- In-memory `Storer.QueryByID`. -/
def memQueryByID (st : List User) (userID : Uuid) : Except Err User :=
  match st.find? (fun u => u.ID == userID) with
  | some u => .ok u
  | none => .error .notFound

/-- In-memory `Storer.QueryByEmail`. -/
def memQueryByEmail (st : List User) (email : Email) : Except Err User :=
  match st.find? (fun u => u.Email == email) with
  | some u => .ok u
  | none => .error .notFound

/-- The in-memory storage fake. -/
def memStorer : Storer (List User) :=
  .mk (fun _ => .error (.storage "tx unsupported"))
      memCreate memUpdate memDelete
      (fun st _ _ _ => .ok st)
      (fun st _ => .ok (st.length : Int))
      memQueryByID memQueryByEmail

/-- A delegate whose subscribers always succeed. -/
def noopDelegate : Delegate := ⟨fun _ => none⟩

/-- A delegate whose subscribers always fail. -/
def failDelegate : Delegate := ⟨fun _ => some (.storage "subscriber failed")⟩

def logger0 : Logger := ⟨0⟩

/-- A core service over the in-memory fake. -/
def memBusiness (lg : Logger) (d : Delegate) : business (List User) :=
  { log := lg, delegate := d, storer := memStorer }

/-- A storer every operation of which fails with a bare storage error. -/
def boomStorer : Storer (List User) :=
  .mk (fun _ => .error (.storage "boom"))
      (fun _ _ => .error (.storage "boom"))
      (fun _ _ => .error (.storage "boom"))
      (fun _ _ => .error (.storage "boom"))
      (fun _ _ _ _ => .error (.storage "boom"))
      (fun _ _ => .error (.storage "boom"))
      (fun _ _ => .error (.storage "boom"))
      (fun _ _ => .error (.storage "boom"))

def boomBusiness : business (List User) :=
  { log := logger0, delegate := noopDelegate, storer := boomStorer }

/-- A storer whose transaction rebinding succeeds, yielding the
in-memory fake. -/
def txStorer : Storer (List User) :=
  .mk (fun _ => .ok memStorer)
      memCreate memUpdate memDelete
      (fun st _ _ _ => .ok st)
      (fun st _ => .ok (st.length : Int))
      memQueryByID memQueryByEmail

def txBusiness : business (List User) :=
  { log := logger0, delegate := noopDelegate, storer := txStorer }

/-- Environment for the concrete scenarios: fresh id 42, clock 100,
salt 7. -/
def envA : Env := ⟨42, 100, 7⟩

/-- The spec's example creation request. -/
def adaNew : NewUser :=
  { Name := "Ada", Email := "ada@x.io", Password := "s3cret!",
    Roles := ["USER"], Department := "" }

/-- The record `Create` builds from `adaNew` under `envA`. -/
def adaCreated : User :=
  { ID := 42, Name := "Ada", Email := "ada@x.io",
    PasswordHash := { cost := DefaultCost, salt := 7, pw := "s3cret!" },
    Roles := ["USER"], Department := "", Enabled := true,
    DateCreated := 100, DateUpdated := 100 }

/-- Environment for the follow-up update: fresh id 43, a later clock
reading 200, salt 8. -/
def envB : Env := ⟨43, 200, 8⟩

/-- A partial update of Ada: new name, new password, disabled; email,
roles and department absent. -/
def adaUpdate : UpdateUser :=
  { Name := some "Ada L.", Email := none, Roles := none,
    Department := none, Password := some "newpw", Enabled := some false }

/-- The record `Update` produces from `adaCreated` and `adaUpdate`
under `envB`. -/
def adaUpdated : User :=
  { ID := 42, Name := "Ada L.", Email := "ada@x.io",
    PasswordHash := { cost := DefaultCost, salt := 8, pw := "newpw" },
    Roles := ["USER"], Department := "", Enabled := false,
    DateCreated := 100, DateUpdated := 200 }

/-- A 73-byte plaintext exceeding the bcrypt input limit. -/
def longPassword : String := String.mk (List.replicate 73 (Char.ofNat 97))

/-- An update request carrying the oversized password (plus a name
change that must not survive the hashing failure). -/
def longUpdate : UpdateUser :=
  { Name := some "X", Email := none, Roles := none, Department := none,
    Password := some longPassword, Enabled := none }

/-- An instrumented operation standing for the core: records that the
core ran. -/
def traceCore : List String → List String := fun entries => entries ++ ["core"]

/-- An instrumented plugin recording its entry and exit around the
wrapped implementation. -/
def tracePlugin (name : String) (inner : List String → List String) :
    List String → List String :=
  fun entries => inner (entries ++ [name ++ "-enter"]) ++ [name ++ "-exit"]

/-! ### Helper lemmas -/

@[simp]
theorem applyName_eq (u : User) (v : Option String) :
    applyName u v = { u with Name := v.getD u.Name } := by
  cases v <;> rfl

@[simp]
theorem applyEmail_eq (u : User) (v : Option Email) :
    applyEmail u v = { u with Email := v.getD u.Email } := by
  cases v <;> rfl

@[simp]
theorem applyRoles_eq (u : User) (v : Option (List String)) :
    applyRoles u v = { u with Roles := v.getD u.Roles } := by
  cases v <;> rfl

@[simp]
theorem applyDepartment_eq (u : User) (v : Option String) :
    applyDepartment u v = { u with Department := v.getD u.Department } := by
  cases v <;> rfl

@[simp]
theorem applyEnabled_eq (u : User) (v : Option Bool) :
    applyEnabled u v = { u with Enabled := v.getD u.Enabled } := by
  cases v <;> rfl

/-- String append is associative (helper for message-shape facts). -/
theorem strAppend_assoc (a b c : String) : (a ++ b) ++ c = a ++ (b ++ c) :=
  String.append_assoc a b c

/-- At the default cost, `GenerateFromPassword` is just the length
check. -/
theorem generate_default_eq (p : String) (s : Nat) :
    GenerateFromPassword p DefaultCost s =
      if p.utf8ByteSize > maxPasswordLength then
        Except.error BcryptError.passwordTooLong
      else
        Except.ok { cost := DefaultCost, salt := s, pw := p } := by
  unfold GenerateFromPassword
  by_cases hlen : p.utf8ByteSize > maxPasswordLength
  · simp only [if_pos hlen]
  · simp only [if_neg hlen,
      if_neg (show ¬ DefaultCost < MinCost by decide),
      if_neg (show ¬ DefaultCost > MaxCost by decide)]

/-- A successful default-cost hash is the record with that cost, the
ambient salt and the supplied plaintext. -/
theorem generate_ok_default (p : String) (s : Nat) (h : BcryptHash)
    (hg : GenerateFromPassword p DefaultCost s = .ok h) :
    h = { cost := DefaultCost, salt := s, pw := p } := by
  rw [generate_default_eq] at hg
  split at hg
  · cases hg
  · injection hg with hg
    exact hg.symm

/-- The byte encoding of a bcrypt hash never coincides with the
plaintext it hashes: the encoding strictly extends the plaintext. -/
theorem render_ne_pw (h : BcryptHash) : h.render ≠ h.pw := by
  intro hEq
  have hlen := congrArg String.length hEq
  have h4 : ("$2a$" : String).length = 4 := rfl
  have h1 : ("$" : String).length = 1 := rfl
  simp only [BcryptHash.render, String.length_append, h4, h1] at hlen
  omega

/-- Characterisation of a successful `Create`: the returned record's
shape, the port call made, and the hash equation. -/
theorem create_ok_shape {σ : Type} (b : business σ) (env : Env) (st : σ)
    (a : Uuid) (nu : NewUser) (out : User) (st2 : σ) (calls : List PortCall)
    (h : b.Create env st a nu = (.ok out, st2, calls)) :
    out = { ID := env.freshID, Name := nu.Name, Email := nu.Email,
            PasswordHash := { cost := DefaultCost, salt := env.salt,
                              pw := nu.Password },
            Roles := nu.Roles, Department := nu.Department, Enabled := true,
            DateCreated := env.now, DateUpdated := env.now } ∧
    calls = [.storeCreate out] ∧
    b.storer.create st out = .ok st2 ∧
    GenerateFromPassword nu.Password DefaultCost env.salt = .ok out.PasswordHash := by
  cases hg : GenerateFromPassword nu.Password DefaultCost env.salt with
  | error e =>
    simp [business.Create, hg] at h
  | ok hash =>
    have hhash := generate_ok_default _ _ _ hg
    subst hhash
    simp only [business.Create, hg] at h
    split at h
    · simp at h
    · rename_i st3 hcr
      simp only [Prod.mk.injEq, Except.ok.injEq] at h
      obtain ⟨h1, h2, h3⟩ := h
      subst h1
      subst h2
      subst h3
      exact ⟨rfl, rfl, hcr, rfl⟩

/-! ### Claims -/

/-- C1, corrected.  The code does not give the two failures the same
kind: a failure of `Authenticate` caused by the email not existing
wraps the lookup error and keeps its kind (the not-found kind when the
storage port reports not-found), while a wrong password for an
existing email fails with the authentication-failure kind; the two
kinds differ, so a caller inspecting only the error kind CAN
distinguish an unknown email from a credential mismatch. -/
theorem C1_theorem {σ : Type} (b : business σ) (st1 st2 : σ)
    (email1 email2 : Email) (password : String) (usr : User) (e0 : Err)
    (h1 : b.storer.queryByEmail st1 email1 = .error e0)
    (h0 : e0.kind = .notFound)
    (h2 : b.storer.queryByEmail st2 email2 = .ok usr)
    (h3 : CompareHashAndPassword usr.PasswordHash password ≠ none) :
    errKind? (b.Authenticate st1 email1 password).1 = some .notFound ∧
    errKind? (b.Authenticate st2 email2 password).1 = some .authenticationFailure ∧
    errKind? (b.Authenticate st1 email1 password).1 ≠
      errKind? (b.Authenticate st2 email2 password).1 := by
  have ha1 : errKind? (b.Authenticate st1 email1 password).1 = some Err.notFound := by
    simp [business.Authenticate, business.QueryByEmail, h1, errKind?, Err.kind, h0]
  have ha2 : errKind? (b.Authenticate st2 email2 password).1 =
      some Err.authenticationFailure := by
    cases hc : CompareHashAndPassword usr.PasswordHash password with
    | none => exact absurd hc h3
    | some ce =>
      simp [business.Authenticate, business.QueryByEmail, h2, hc, errKind?, Err.kind]
  refine ⟨ha1, ha2, ?_⟩
  rw [ha1, ha2]
  decide

/-- C1, counterexample to the claim as stated: on the in-memory store
holding only Ada's record, the unknown-email failure and the
wrong-password failure carry different error kinds. -/
theorem C1_counterexample :
    errKind? ((memBusiness logger0 noopDelegate).Authenticate [adaCreated]
      "bob@x.io" "wrong").1 ≠
    errKind? ((memBusiness logger0 noopDelegate).Authenticate [adaCreated]
      "ada@x.io" "wrong").1 := by
  decide

/-- C1, witness: the amended theorem applied at the concrete store. -/
theorem C1_witness :
    errKind? ((memBusiness logger0 noopDelegate).Authenticate [adaCreated]
      "bob@x.io" "wrong").1 = some .notFound ∧
    errKind? ((memBusiness logger0 noopDelegate).Authenticate [adaCreated]
      "ada@x.io" "wrong").1 = some .authenticationFailure ∧
    errKind? ((memBusiness logger0 noopDelegate).Authenticate [adaCreated]
      "bob@x.io" "wrong").1 ≠
    errKind? ((memBusiness logger0 noopDelegate).Authenticate [adaCreated]
      "ada@x.io" "wrong").1 :=
  C1_theorem (memBusiness logger0 noopDelegate) [adaCreated] [adaCreated]
    "bob@x.io" "ada@x.io" "wrong" adaCreated .notFound rfl rfl rfl (by decide)

/-- C2.  A successful `Update` overwrites exactly the present fields of
the `UpdateUser` (a present `Password` is re-hashed into
`PasswordHash`), leaves every absent field as well as `ID` and
`DateCreated` unchanged, sets `DateUpdated` to the current time, and
the persisted record (the argument of the single storage-port update
call) is the returned record. -/
theorem C2_theorem {σ : Type} (b : business σ) (env : Env) (st : σ) (a : Uuid)
    (usr : User) (uu : UpdateUser) (out : User) (st2 : σ) (calls : List PortCall)
    (h : b.Update env st a usr uu = (.ok out, st2, calls)) :
    out.ID = usr.ID ∧
    out.DateCreated = usr.DateCreated ∧
    out.DateUpdated = env.now ∧
    out.Name = uu.Name.getD usr.Name ∧
    out.Email = uu.Email.getD usr.Email ∧
    out.Roles = uu.Roles.getD usr.Roles ∧
    out.Department = uu.Department.getD usr.Department ∧
    out.Enabled = uu.Enabled.getD usr.Enabled ∧
    (∀ p, uu.Password = some p →
      GenerateFromPassword p DefaultCost env.salt = .ok out.PasswordHash) ∧
    (uu.Password = none → out.PasswordHash = usr.PasswordHash) ∧
    calls = [.storeUpdate out] ∧
    b.storer.update st out = .ok st2 := by
  cases hp : uu.Password with
  | none =>
    simp only [business.Update, hp, business.updateRest] at h
    split at h
    · simp at h
    · rename_i st3 hup
      simp only [Prod.mk.injEq, Except.ok.injEq] at h
      obtain ⟨h1, h2, h3⟩ := h
      subst h1
      subst h2
      subst h3
      refine ⟨by simp, by simp, by simp, by simp, by simp, by simp, by simp,
        by simp, by simp, by simp, rfl, hup⟩
  | some p =>
    cases hg : GenerateFromPassword p DefaultCost env.salt with
    | error e =>
      simp [business.Update, hp, hg] at h
    | ok pw =>
      simp only [business.Update, hp, hg, business.updateRest] at h
      split at h
      · simp at h
      · rename_i st3 hup
        simp only [Prod.mk.injEq, Except.ok.injEq] at h
        obtain ⟨h1, h2, h3⟩ := h
        subst h1
        subst h2
        subst h3
        refine ⟨by simp, by simp, by simp, by simp, by simp, by simp, by simp,
          by simp, ?_, by simp, rfl, hup⟩
        intro p2 hp2
        injection hp2 with hp2
        subst hp2
        simpa using hg

/-- C2, witness: updating Ada's name, password and enabled flag under a
later clock reading, against the in-memory store. -/
theorem C2_witness :
    adaUpdated.ID = adaCreated.ID ∧
    adaUpdated.DateCreated = adaCreated.DateCreated ∧
    adaUpdated.DateUpdated = envB.now ∧
    adaUpdated.Name = adaUpdate.Name.getD adaCreated.Name ∧
    adaUpdated.Email = adaUpdate.Email.getD adaCreated.Email ∧
    adaUpdated.Roles = adaUpdate.Roles.getD adaCreated.Roles ∧
    adaUpdated.Department = adaUpdate.Department.getD adaCreated.Department ∧
    adaUpdated.Enabled = adaUpdate.Enabled.getD adaCreated.Enabled ∧
    (∀ p, adaUpdate.Password = some p →
      GenerateFromPassword p DefaultCost envB.salt = .ok adaUpdated.PasswordHash) ∧
    (adaUpdate.Password = none → adaUpdated.PasswordHash = adaCreated.PasswordHash) ∧
    [PortCall.storeUpdate adaUpdated] = [PortCall.storeUpdate adaUpdated] ∧
    (memBusiness logger0 noopDelegate).storer.update [adaCreated] adaUpdated =
      .ok [adaUpdated] :=
  C2_theorem (memBusiness logger0 noopDelegate) envB [adaCreated] 0 adaCreated
    adaUpdate adaUpdated [adaUpdated] [.storeUpdate adaUpdated] rfl

/-- C3.  A successful `Create` returns (and hands to the single
storage-port create call) a record whose `PasswordHash` is the
default-cost salted hash of the supplied plaintext, whose `ID` is the
freshly generated identifier, whose `DateCreated` and `DateUpdated`
both equal the current clock reading, whose `Enabled` is true, and
whose `Name`, `Email`, `Roles` and `Department` come from the
`NewUser`. -/
theorem C3_theorem {σ : Type} (b : business σ) (env : Env) (st : σ) (a : Uuid)
    (nu : NewUser) (out : User) (st2 : σ) (calls : List PortCall)
    (h : b.Create env st a nu = (.ok out, st2, calls)) :
    GenerateFromPassword nu.Password DefaultCost env.salt = .ok out.PasswordHash ∧
    out.PasswordHash = { cost := DefaultCost, salt := env.salt, pw := nu.Password } ∧
    out.ID = env.freshID ∧
    out.DateCreated = env.now ∧
    out.DateUpdated = env.now ∧
    out.Enabled = true ∧
    out.Name = nu.Name ∧
    out.Email = nu.Email ∧
    out.Roles = nu.Roles ∧
    out.Department = nu.Department ∧
    calls = [.storeCreate out] ∧
    b.storer.create st out = .ok st2 := by
  obtain ⟨hout, hcalls, hcr, hgen⟩ := create_ok_shape b env st a nu out st2 calls h
  subst hout
  exact ⟨hgen, rfl, rfl, rfl, rfl, rfl, rfl, rfl, rfl, rfl, hcalls, hcr⟩

/-- C3, witness: the spec's Ada example against the in-memory store. -/
theorem C3_witness :
    GenerateFromPassword adaNew.Password DefaultCost envA.salt =
      .ok adaCreated.PasswordHash ∧
    adaCreated.PasswordHash =
      { cost := DefaultCost, salt := envA.salt, pw := adaNew.Password } ∧
    adaCreated.ID = envA.freshID ∧
    adaCreated.DateCreated = envA.now ∧
    adaCreated.DateUpdated = envA.now ∧
    adaCreated.Enabled = true ∧
    adaCreated.Name = adaNew.Name ∧
    adaCreated.Email = adaNew.Email ∧
    adaCreated.Roles = adaNew.Roles ∧
    adaCreated.Department = adaNew.Department ∧
    [PortCall.storeCreate adaCreated] = [PortCall.storeCreate adaCreated] ∧
    (memBusiness logger0 noopDelegate).storer.create [] adaCreated =
      .ok [adaCreated] :=
  C3_theorem (memBusiness logger0 noopDelegate) envA [] 0 adaNew adaCreated
    [adaCreated] [.storeCreate adaCreated] rfl

/-- C4.  `Delete` performs the storage-port delete first; the event
port is invoked (with the deleted user's identifier) only after the
storage delete succeeded; a failure of either step fails the whole
operation, and on an event-dispatch failure the already-performed
storage delete is left applied (the returned state is the
post-delete state, not the original one). -/
theorem C4_theorem {σ : Type} (b : business σ) (st : σ) (a : Uuid) (usr : User) :
    (∀ e, b.storer.delete st usr = .error e →
      b.Delete st a usr = (.error (.wrap "delete" e), st, [.storeDelete usr])) ∧
    (∀ st2 e, b.storer.delete st usr = .ok st2 →
      b.delegate.call (ActionDeletedData usr.ID) = some e →
      b.Delete st a usr =
        (.error (.wrap ("failed to execute `" ++ ActionDeleted ++ "` action") e),
         st2, [.storeDelete usr, .delegateCall (ActionDeletedData usr.ID)])) ∧
    (∀ st2, b.storer.delete st usr = .ok st2 →
      b.delegate.call (ActionDeletedData usr.ID) = none →
      b.Delete st a usr =
        (.ok (), st2, [.storeDelete usr, .delegateCall (ActionDeletedData usr.ID)])) := by
  refine ⟨?_, ?_, ?_⟩
  · intro e he
    simp [business.Delete, he]
  · intro st2 e hdel hcall
    simp [business.Delete, hdel, hcall]
  · intro st2 hdel hcall
    simp [business.Delete, hdel, hcall]

/-- C4, witness: deleting Ada with a failing delegate — the store state
returned is the post-delete one (empty), yet the call reports failure,
and the trace shows the storage delete preceding the delegate call. -/
theorem C4_witness :
    (memBusiness logger0 failDelegate).Delete [adaCreated] 0 adaCreated =
      (.error (.wrap ("failed to execute `" ++ ActionDeleted ++ "` action")
        (.storage "subscriber failed")),
       [], [.storeDelete adaCreated, .delegateCall (ActionDeletedData adaCreated.ID)]) :=
  (C4_theorem (memBusiness logger0 failDelegate) [adaCreated] 0 adaCreated).2.1
    [] (.storage "subscriber failed") rfl rfl

/-- C5.  The plugin chain built by `NewBusiness` is
`P1(P2(...Pn(core)...))`: the first-listed plugin becomes the
outermost wrapper, a `nil` entry is skipped as the identity, and on
the instrumented two-plugin chain `[A, B]` the observed order around
the core is A-enter, B-enter, core, B-exit, A-exit. -/
theorem C5_theorem :
    (∀ (B : Type) (core : B) (f : B → B) (ps : List (Option (B → B))),
      NewBusiness core (some f :: ps) = f (NewBusiness core ps)) ∧
    (∀ (B : Type) (core : B) (ps : List (Option (B → B))),
      NewBusiness core (none :: ps) = NewBusiness core ps) ∧
    (∀ (B : Type) (core : B), NewBusiness core [] = core) ∧
    NewBusiness traceCore [some (tracePlugin "A"), some (tracePlugin "B")] [] =
      ["A-enter", "B-enter", "core", "B-exit", "A-exit"] := by
  refine ⟨?_, ?_, ?_, ?_⟩
  · intro B core f ps
    simp [NewBusiness, applyPlugins, List.foldl_append]
  · intro B core ps
    simp [NewBusiness, applyPlugins, List.foldl_append]
  · intro B core
    rfl
  · rfl

/-- C6.  Round trip of hashing through verification against the
in-memory store: after a successful `Create` with plaintext `p`, the
stored `PasswordHash` (in its byte encoding) differs from `p`,
`Authenticate` on the new user's email with `p` succeeds and returns
the stored record, and `Authenticate` with any other plaintext fails
with the authentication-failure kind. -/
theorem C6_theorem (lg : Logger) (d : Delegate) (env : Env) (a : Uuid)
    (nu : NewUser) (out : User) (st2 : List User) (calls : List PortCall)
    (q : String)
    (h : (memBusiness lg d).Create env [] a nu = (.ok out, st2, calls)) :
    out.PasswordHash.render ≠ nu.Password ∧
    ((memBusiness lg d).Authenticate st2 nu.Email nu.Password).1 = .ok out ∧
    (q ≠ nu.Password →
      errKind? ((memBusiness lg d).Authenticate st2 nu.Email q).1 =
        some .authenticationFailure) := by
  obtain ⟨hout, hcalls, hcr, hgen⟩ := create_ok_shape _ env [] a nu out st2 calls h
  have hemail : out.Email = nu.Email := by rw [hout]
  have hpw : out.PasswordHash.pw = nu.Password := by rw [hout]
  have hst2 : st2 = [out] := by
    have hmc : memCreate [] out = .ok st2 := hcr
    simp [memCreate] at hmc
    exact hmc.symm
  subst hst2
  have hfind : memStorer.queryByEmail [out] nu.Email = .ok out := by
    simp [memStorer, Storer.queryByEmail, memQueryByEmail, List.find?, hemail]
  refine ⟨?_, ?_, ?_⟩
  · rw [← hpw]
    exact render_ne_pw out.PasswordHash
  · simp [business.Authenticate, business.QueryByEmail, memBusiness, hfind,
      CompareHashAndPassword, hpw]
  · intro hq
    have hcmp : CompareHashAndPassword out.PasswordHash q =
        some .mismatchedHashAndPassword := by
      unfold CompareHashAndPassword
      rw [hpw, if_neg (Ne.symm hq)]
    simp [business.Authenticate, business.QueryByEmail, memBusiness, hfind,
      hcmp, errKind?, Err.kind]

/-- C6, witness: the Ada example — create, then authenticate with the
right and with a wrong plaintext. -/
theorem C6_witness :
    adaCreated.PasswordHash.render ≠ adaNew.Password ∧
    ((memBusiness logger0 noopDelegate).Authenticate [adaCreated] adaNew.Email
      adaNew.Password).1 = .ok adaCreated ∧
    errKind? ((memBusiness logger0 noopDelegate).Authenticate [adaCreated]
      adaNew.Email "wrong").1 = some .authenticationFailure := by
  have hfull := C6_theorem logger0 noopDelegate envA 0 adaNew adaCreated
    [adaCreated] [.storeCreate adaCreated] "wrong" rfl
  exact ⟨hfull.1, hfull.2.1, hfull.2.2 (by decide)⟩

/-- C7, corrected.  Every error returned by `Create`, `Update`,
`Delete`, `Query`, `QueryByID`, `QueryByEmail` and `Authenticate` is
the underlying failure wrapped with an operation-identifying prefix,
but `Count` is a bare pass-through of the storage port's result and
`NewWithTx` propagates the rebinding error unwrapped — so the claim's
"every operation of the contract, including Count" part is false. -/
theorem C7_theorem {σ : Type} (b : business σ) (env : Env) (st : σ) (a : Uuid)
    (nu : NewUser) (usr : User) (uu : UpdateUser) (filter : QueryFilter)
    (orderBy : OrderBy) (page : Page) (userID : Uuid) (email : Email)
    (password : String) (tx : Tx) :
    (∀ e, (b.Create env st a nu).1 = .error e → e.isWrap = true) ∧
    (∀ e, (b.Update env st a usr uu).1 = .error e → e.isWrap = true) ∧
    (∀ e, (b.Delete st a usr).1 = .error e → e.isWrap = true) ∧
    (∀ e, (b.Query st filter orderBy page).1 = .error e → e.isWrap = true) ∧
    (∀ e, (b.QueryByID st userID).1 = .error e → e.isWrap = true) ∧
    (∀ e, (b.QueryByEmail st email).1 = .error e → e.isWrap = true) ∧
    (∀ e, (b.Authenticate st email password).1 = .error e → e.isWrap = true) ∧
    (b.Count st filter).1 = b.storer.count st filter ∧
    (∀ e, b.storer.newWithTx tx = .error e → b.NewWithTx tx = .error e) := by
  refine ⟨?_, ?_, ?_, ?_, ?_, ?_, ?_, rfl, ?_⟩
  · intro e he
    cases hg : GenerateFromPassword nu.Password DefaultCost env.salt with
    | error e1 =>
      simp [business.Create, hg] at he
      subst he
      rfl
    | ok hash =>
      simp only [business.Create, hg] at he
      split at he
      · simp at he
        subst he
        rfl
      · simp at he
  · intro e he
    cases hp : uu.Password with
    | some p =>
      cases hg : GenerateFromPassword p DefaultCost env.salt with
      | error e1 =>
        simp [business.Update, hp, hg] at he
        subst he
        rfl
      | ok pw =>
        simp only [business.Update, hp, hg, business.updateRest] at he
        split at he
        · simp at he
          subst he
          rfl
        · simp at he
    | none =>
      simp only [business.Update, hp, business.updateRest] at he
      split at he
      · simp at he
        subst he
        rfl
      · simp at he
  · intro e he
    cases hd : b.storer.delete st usr with
    | error e1 =>
      simp [business.Delete, hd] at he
      subst he
      rfl
    | ok st2 =>
      cases hc : b.delegate.call (ActionDeletedData usr.ID) with
      | some e1 =>
        simp [business.Delete, hd, hc] at he
        subst he
        rfl
      | none =>
        simp [business.Delete, hd, hc] at he
  · intro e he
    cases hqr : b.storer.query st filter orderBy page with
    | error e1 =>
      simp [business.Query, hqr] at he
      subst he
      rfl
    | ok users =>
      simp [business.Query, hqr] at he
  · intro e he
    cases hqr : b.storer.queryByID st userID with
    | error e1 =>
      simp [business.QueryByID, hqr] at he
      subst he
      rfl
    | ok u =>
      simp [business.QueryByID, hqr] at he
  · intro e he
    cases hqr : b.storer.queryByEmail st email with
    | error e1 =>
      simp [business.QueryByEmail, hqr] at he
      subst he
      rfl
    | ok u =>
      simp [business.QueryByEmail, hqr] at he
  · intro e he
    cases hqr : b.storer.queryByEmail st email with
    | error e1 =>
      simp [business.Authenticate, business.QueryByEmail, hqr] at he
      subst he
      rfl
    | ok u =>
      cases hc : CompareHashAndPassword u.PasswordHash password with
      | some ce =>
        simp [business.Authenticate, business.QueryByEmail, hqr, hc] at he
        subst he
        rfl
      | none =>
        simp [business.Authenticate, business.QueryByEmail, hqr, hc] at he
  · intro e he
    simp [business.NewWithTx, he]

/-- C7, counterexample to the claim as stated: on a storage port whose
count fails with a bare storage error, `Count` returns exactly that
error, not a wrapped one. -/
theorem C7_counterexample :
    (boomBusiness.Count [] ⟨0⟩).1 = .error (.storage "boom") ∧
    (Err.storage "boom").isWrap = false :=
  ⟨rfl, rfl⟩

/-- C7, witness: the amended theorem applied at the failing storer —
the `Query` failure is a wrap. -/
theorem C7_witness :
    (boomBusiness.Query [] ⟨0⟩ ⟨0⟩ ⟨0⟩).1 =
      .error (.wrap "query" (.storage "boom")) ∧
    (Err.wrap "query" (.storage "boom")).isWrap = true := by
  have hfull := C7_theorem boomBusiness envA [] 0 adaNew adaCreated adaUpdate
    ⟨0⟩ ⟨0⟩ ⟨0⟩ 7 "x@y.io" "pw" ⟨0⟩
  exact ⟨rfl, hfull.2.2.2.1 (.wrap "query" (.storage "boom")) rfl⟩

/-- C8.  `NewWithTx` fails exactly when the storage port's rebinding
fails, propagating that error and returning no instance; on success it
returns a new `business` value that reuses the original logger and
delegate and carries the rebound storage port (the original value is
untouched — the construction is a fresh record). -/
theorem C8_theorem {σ : Type} (b : business σ) (tx : Tx) :
    (∀ e, b.storer.newWithTx tx = .error e → b.NewWithTx tx = .error e) ∧
    (∀ s2, b.storer.newWithTx tx = .ok s2 →
      b.NewWithTx tx = .ok { log := b.log, delegate := b.delegate, storer := s2 }) := by
  refine ⟨?_, ?_⟩
  · intro e he
    simp [business.NewWithTx, he]
  · intro s2 hs
    simp [business.NewWithTx, hs]

/-- C8, witness: rebinding against a storer whose rebinding yields the
in-memory fake. -/
theorem C8_witness :
    txBusiness.NewWithTx ⟨3⟩ =
      .ok { log := txBusiness.log, delegate := txBusiness.delegate,
            storer := memStorer } :=
  (C8_theorem txBusiness ⟨3⟩).2 memStorer rfl

/-- C9.  When the storage port reports a failure, `QueryByID`
(respectively `QueryByEmail`) fails with the storage error wrapped in
a message that carries the offending identifier (respectively email)
as a substring. -/
theorem C9_theorem {σ : Type} (b : business σ) (st : σ) (userID : Uuid)
    (email : Email) :
    (∀ e, b.storer.queryByID st userID = .error e →
      (b.QueryByID st userID).1 =
        .error (.wrap ("query: userID[" ++ Nat.repr userID ++ "]") e) ∧
      ∃ s1 s2, (Err.wrap ("query: userID[" ++ Nat.repr userID ++ "]") e).message =
        s1 ++ Nat.repr userID ++ s2) ∧
    (∀ e, b.storer.queryByEmail st email = .error e →
      (b.QueryByEmail st email).1 =
        .error (.wrap ("query: email[" ++ email ++ "]") e) ∧
      ∃ s1 s2, (Err.wrap ("query: email[" ++ email ++ "]") e).message =
        s1 ++ email ++ s2) := by
  refine ⟨?_, ?_⟩
  · intro e he
    refine ⟨by simp [business.QueryByID, he], "query: userID[",
      "]: " ++ e.message, ?_⟩
    simp [Err.message, strAppend_assoc]
  · intro e he
    refine ⟨by simp [business.QueryByEmail, he], "query: email[",
      "]: " ++ e.message, ?_⟩
    simp [Err.message, strAppend_assoc]

/-- C9, witness: the failing storer at identifier 7 — the failure is
wrapped and its message carries the identifier. -/
theorem C9_witness :
    (boomBusiness.QueryByID [] 7).1 =
      .error (.wrap ("query: userID[" ++ Nat.repr 7 ++ "]") (.storage "boom")) ∧
    ∃ s1 s2, (Err.wrap ("query: userID[" ++ Nat.repr 7 ++ "]")
      (Err.storage "boom")).message = s1 ++ Nat.repr 7 ++ s2 :=
  (C9_theorem boomBusiness [] 7 "x@y.io").1 (.storage "boom") rfl

/-- C10.  When the `UpdateUser` carries a password whose hashing
fails, `Update` returns the hashing error (the Go code returns the
zero `User` with it, modelled as the error result) with the state
unchanged and an empty port-call trace: the storage port is never
invoked, so no field of the merge is persisted. -/
theorem C10_theorem {σ : Type} (b : business σ) (env : Env) (st : σ) (a : Uuid)
    (usr : User) (uu : UpdateUser) (p : String) (e : BcryptError)
    (hp : uu.Password = some p)
    (he : GenerateFromPassword p DefaultCost env.salt = .error e) :
    b.Update env st a usr uu =
      (.error (.wrap "generatefrompassword" (.bcrypt e)), st, []) := by
  simp [business.Update, hp, he]

/-- C10, witness: an update of Ada whose new password exceeds the
72-byte bcrypt limit — nothing is persisted. -/
theorem C10_witness :
    (memBusiness logger0 noopDelegate).Update envA [adaCreated] 0 adaCreated
      longUpdate =
      (.error (.wrap "generatefrompassword" (.bcrypt .passwordTooLong)),
       [adaCreated], []) :=
  C10_theorem (memBusiness logger0 noopDelegate) envA [adaCreated] 0 adaCreated
    longUpdate longPassword .passwordTooLong rfl rfl

end Userbus
